import Mathlib

/-
Verification development for the pyrkit validation pipeline
(src/validate.py, with the remote-catalog session layer of
src/dme_utils.py treated as an external collaborator).

Paths and file names are modelled as `List Char`; attribute names and
values as `String`.  Python for-loops over index ranges are translated
to the corresponding list combinators (`filter`, `map`, `bind`) or to
simultaneous structural recursion on the parallel lists the source
indexes into; the iteration order of the source is preserved.
-/

namespace Pyrkit

/-! ## Data model: metadata entries and documents (validate.py JSON shape) -/

/-- One attribute/value pair of a metadata document
(`{"attribute": ..., "value": ...}`). -/
structure Entry where
  attr : String
  value : String
deriving DecidableEq, Repr

/-- A metadata document: the sidecar JSON object with its
`metadataEntries` list. -/
structure Doc where
  metadataEntries : List Entry
deriving DecidableEq, Repr

/-- A reported change of one attribute (printed by
`evaluate_differences` as "will be modified from old to new"). -/
structure Change where
  attr : String
  old_value : String
  new_value : String
deriving DecidableEq, Repr

/-! ## Model of the Python builtin `float` on decimal literals

`evaluate_differences` uses `float(...)` to decide numeric equality.
We model the decimal-literal fragment (optional sign, digits with an
optional fraction part, optional exponent) as an exact rational; the
special forms `inf`/`nan`/underscored literals and surrounding
whitespace are outside the modelled fragment and parse as `none`
(i.e. they take the non-numeric comparison branch). -/

/-- Value of a digit string, most significant digit first. -/
def digits_val (s : List Char) : Nat :=
  s.foldl (fun n c => 10 * n + (c.toNat - 48)) 0

/-- Strip an optional leading sign, returning the sign as `1` or `-1`. -/
def py_sign : List Char → Int × List Char
  | [] => (1, [])
  | c :: rest =>
    if c = '+' then (1, rest)
    else if c = '-' then (-1, rest)
    else (1, c :: rest)

/-- Parse an unsigned decimal literal `digits`, `digits.digits`,
`digits.` or `.digits`.  Returns the mantissa read without the dot
together with the length of the fraction part, so the parsed value is
`mantissa / 10 ^ fraction_length`. -/
def py_unsigned (s : List Char) : Option (Nat × Nat) :=
  let ip := s.takeWhile (fun c => c != '.')
  let rest := s.dropWhile (fun c => c != '.')
  match rest with
  | [] =>
    if !ip.isEmpty && ip.all Char.isDigit then some (digits_val ip, 0) else none
  | _ :: fp =>
    if (!ip.isEmpty || !fp.isEmpty) && ip.all Char.isDigit && fp.all Char.isDigit then
      some (digits_val ip * 10 ^ fp.length + digits_val fp, fp.length)
    else none

/-- Model of Python `float(s)` on the decimal-literal fragment.
The result is an exact, not necessarily reduced fraction
`(numerator, denominator)` with denominator a positive power of ten;
`none` when `float` would raise `ValueError`. -/
def py_float (s : String) : Option (Int × Nat) :=
  let cs := s.toList
  let mant := cs.takeWhile (fun c => !(c == 'e' || c == 'E'))
  let rest := cs.dropWhile (fun c => !(c == 'e' || c == 'E'))
  let sm := py_sign mant
  match py_unsigned sm.2, rest with
  | some nf, [] => some (sm.1 * (nf.1 : Int), 10 ^ nf.2)
  | some nf, _ :: ep =>
    let se := py_sign ep
    if !se.2.isEmpty && se.2.all Char.isDigit then
      if se.1 < 0 then
        some (sm.1 * (nf.1 : Int), 10 ^ (nf.2 + digits_val se.2))
      else
        some (sm.1 * (nf.1 : Int) * (10 : Int) ^ digits_val se.2, 10 ^ nf.2)
    else none
  | none, _ => none

/-- The exact rational value of a parse result of `py_float`. -/
def num_val (p : Int × Nat) : ℚ := (p.1 : ℚ) / (p.2 : ℚ)

/-- Equality of the numeric values of two `py_float` results, decided
by cross multiplication (denominators produced by `py_float` are
positive powers of ten, so this is exactly equality of the values).
This models the `float(a) == float(b)` comparison of the source. -/
def py_num_eq (a b : Int × Nat) : Bool :=
  a.1 * (b.2 : Int) == b.1 * (a.2 : Int)

/-! ## Metadata differ (validate.py lines 197-249) -/

/-- Embedding of `get_different_fields(meta_dme, meta_local)`.
Returns `(items_only_dme, items_only_local, items_both)`.  The two
nested index loops of the source translate to: an attribute of
`meta_dme` goes to `items_only_dme` when no entry of `meta_local`
carries the same name, and is appended to `items_both` once per
same-named entry of `meta_local` (duplicates are not deduplicated);
symmetrically for `items_only_local`. -/
def get_different_fields (meta_dme meta_local : List Entry) :
    List String × List String × List String :=
  let items_both := meta_dme.flatMap (fun e_i =>
    meta_local.filterMap (fun e_j =>
      if e_i.attr == e_j.attr then some e_i.attr else none))
  let items_only_dme := (meta_dme.filter (fun e_i =>
    !(meta_local.any (fun e_j => e_i.attr == e_j.attr)))).map (fun e => e.attr)
  let items_only_local := (meta_local.filter (fun e_i =>
    !(meta_dme.any (fun e_j => e_i.attr == e_j.attr)))).map (fun e => e.attr)
  (items_only_dme, items_only_local, items_both)

/-- The condition under which the value-comparison of
`evaluate_differences` prints a modification line: the raw values
differ, and it is not the case that both parse as floats of equal
value.  (In the source the `try` branch prints when both floats parse
and are unequal, and the bare `except` branch prints whenever either
`float(...)` raises; this Boolean is that exact condition.) -/
def prints_change (v_dme v_local : String) : Bool :=
  v_local != v_dme &&
    (match py_float v_local, py_float v_dme with
     | some x, some y => !py_num_eq x y
     | _, _ => true)

/-- The change entries printed by the third loop of
`evaluate_differences`: for each attribute occurrence in `items_both`,
for each local entry then each remote (DME) entry carrying that name
(the `continue` statements of the source are the two filters), a
change is printed when `prints_change` holds; `old_value` is the DME
value and `new_value` the local value. -/
def changed_entries (meta_dme meta_local : List Entry) : List Change :=
  let r := get_different_fields meta_dme meta_local
  r.2.2.flatMap (fun att =>
    (meta_local.filter (fun e_l => e_l.attr == att)).flatMap (fun e_l =>
      (meta_dme.filter (fun e_d => e_d.attr == att)).flatMap (fun e_d =>
        if prints_change e_d.value e_l.value then [⟨att, e_d.value, e_l.value⟩] else [])))

/-! ## Differ helper lemmas -/

theorem py_float_den_pos (s : String) (p : Int × Nat) (h : py_float s = some p) :
    0 < p.2 := by
  dsimp only [py_float] at h
  split at h
  · cases h
    exact pow_pos (by norm_num) _
  · split at h
    · split at h <;> cases h <;> exact pow_pos (by norm_num) _
    · cases h
  · cases h

theorem py_num_eq_iff_num_val (a b : Int × Nat) (ha : 0 < a.2) (hb : 0 < b.2) :
    py_num_eq a b = true ↔ num_val a = num_val b := by
  have ha' : ((a.2 : ℚ)) ≠ 0 := by exact_mod_cast ha.ne'
  have hb' : ((b.2 : ℚ)) ≠ 0 := by exact_mod_cast hb.ne'
  rw [py_num_eq, beq_iff_eq, num_val, num_val, div_eq_div_iff ha' hb']
  constructor
  · intro h
    exact_mod_cast h
  · intro h
    exact_mod_cast h

theorem prints_change_iff (v_dme v_local : String) :
    prints_change v_dme v_local = true ↔
      v_local ≠ v_dme ∧
        ¬ ∃ x y, py_float v_dme = some x ∧ py_float v_local = some y ∧
          num_val x = num_val y := by
  dsimp only [prints_change]
  rw [Bool.and_eq_true, bne_iff_ne]
  constructor
  · rintro ⟨hne, hm⟩
    refine ⟨hne, ?_⟩
    rintro ⟨x, y, hx, hy, hval⟩
    rw [hy, hx] at hm
    dsimp only at hm
    simp only [Bool.not_eq_true'] at hm
    have h2 := (py_num_eq_iff_num_val y x (py_float_den_pos _ _ hy)
      (py_float_den_pos _ _ hx)).mpr hval.symm
    rw [hm] at h2
    cases h2
  · rintro ⟨hne, hnum⟩
    refine ⟨hne, ?_⟩
    cases hl : py_float v_local with
    | none => cases hd : py_float v_dme <;> rfl
    | some y =>
      cases hd : py_float v_dme with
      | none => rfl
      | some x =>
        simp only [Bool.not_eq_true']
        by_contra hcon
        rw [Bool.not_eq_false] at hcon
        exact hnum ⟨x, y, hd, hl,
          ((py_num_eq_iff_num_val y x (py_float_den_pos _ _ hl)
            (py_float_den_pos _ _ hd)).mp hcon).symm⟩

theorem gdf_only_dme_mem (md ml : List Entry) (a : String) :
    a ∈ (get_different_fields md ml).1 ↔
      (∃ e ∈ md, e.attr = a) ∧ ¬ ∃ e ∈ ml, e.attr = a := by
  simp only [get_different_fields, List.mem_map, List.mem_filter,
    Bool.not_eq_true', List.any_eq_false, beq_iff_eq, beq_eq_false_iff_ne]
  constructor
  · rintro ⟨e, ⟨hmem, hno⟩, rfl⟩
    exact ⟨⟨e, hmem, rfl⟩, fun ⟨f, hf, hfa⟩ => hno f hf (hfa ▸ rfl)⟩
  · rintro ⟨⟨e, hmem, rfl⟩, hno⟩
    exact ⟨e, ⟨hmem, fun f hf hfa => hno ⟨f, hf, hfa.symm⟩⟩, rfl⟩

theorem gdf_only_local_mem (md ml : List Entry) (a : String) :
    a ∈ (get_different_fields md ml).2.1 ↔
      (∃ e ∈ ml, e.attr = a) ∧ ¬ ∃ e ∈ md, e.attr = a := by
  simp only [get_different_fields, List.mem_map, List.mem_filter,
    Bool.not_eq_true', List.any_eq_false, beq_iff_eq, beq_eq_false_iff_ne]
  constructor
  · rintro ⟨e, ⟨hmem, hno⟩, rfl⟩
    exact ⟨⟨e, hmem, rfl⟩, fun ⟨f, hf, hfa⟩ => hno f hf (hfa ▸ rfl)⟩
  · rintro ⟨⟨e, hmem, rfl⟩, hno⟩
    exact ⟨e, ⟨hmem, fun f hf hfa => hno ⟨f, hf, hfa.symm⟩⟩, rfl⟩

theorem filterMap_product_aux (e : Entry) (ml : List Entry) :
    ml.filterMap (fun e_j => if e.attr == e_j.attr then some e.attr else none) =
      ((ml.map (fun b => (e, b))).filter (fun p => p.1.attr == p.2.attr)).map
        (fun p => p.1.attr) := by
  induction ml with
  | nil => rfl
  | cons f u ih =>
    simp only [List.filterMap_cons, List.map_cons, List.filter_cons]
    simp only [beq_iff_eq] at ih
    cases h : e.attr == f.attr
    · simp [h, ih]
    · simp [h, ih]

theorem gdf_both_eq_product (md ml : List Entry) :
    (get_different_fields md ml).2.2 =
      ((md ×ˢ ml).filter (fun p => p.1.attr == p.2.attr)).map (fun p => p.1.attr) := by
  simp only [get_different_fields]
  induction md with
  | nil => rfl
  | cons e t ih =>
    rw [List.flatMap_cons, List.product_cons, List.filter_append, List.map_append, ← ih]
    congr 1
    exact filterMap_product_aux e ml

theorem gdf_both_mem (md ml : List Entry) (a : String) :
    a ∈ (get_different_fields md ml).2.2 ↔
      (∃ e ∈ md, e.attr = a) ∧ ∃ e ∈ ml, e.attr = a := by
  simp only [get_different_fields, List.mem_flatMap, List.mem_filterMap]
  constructor
  · rintro ⟨e, hmem, f, hf, hif⟩
    by_cases h : e.attr == f.attr
    · rw [if_pos h] at hif
      cases hif
      exact ⟨⟨e, hmem, rfl⟩, ⟨f, hf, (beq_iff_eq.mp h).symm⟩⟩
    · rw [if_neg h] at hif
      cases hif
  · rintro ⟨⟨e, hmem, rfl⟩, ⟨f, hf, hfa⟩⟩
    exact ⟨e, hmem, f, hf, by rw [if_pos (beq_iff_eq.mpr hfa.symm)]⟩

theorem changed_entries_mem (md ml : List Entry) (c : Change) :
    c ∈ changed_entries md ml ↔
      (∃ e ∈ md, e.attr = c.attr ∧ e.value = c.old_value) ∧
      (∃ e ∈ ml, e.attr = c.attr ∧ e.value = c.new_value) ∧
      prints_change c.old_value c.new_value = true := by
  simp only [changed_entries, List.mem_flatMap, List.mem_filter, beq_iff_eq]
  constructor
  · rintro ⟨att, hatt, e_l, ⟨hlm, hla⟩, e_d, ⟨hdm, hda⟩, hin⟩
    by_cases hp : prints_change e_d.value e_l.value
    · rw [if_pos hp] at hin
      rw [List.mem_singleton] at hin
      subst hin
      exact ⟨⟨e_d, hdm, hda, rfl⟩, ⟨e_l, hlm, hla, rfl⟩, hp⟩
    · rw [if_neg hp] at hin
      cases hin
  · rintro ⟨⟨e_d, hdm, hda, hdv⟩, ⟨e_l, hlm, hla, hlv⟩, hp⟩
    refine ⟨c.attr, ?_, e_l, ⟨hlm, hla⟩, e_d, ⟨hdm, hda⟩, ?_⟩
    · exact (gdf_both_mem md ml c.attr).mpr ⟨⟨e_d, hdm, hda⟩, ⟨e_l, hlm, hla⟩⟩
    · rw [← hdv, ← hlv] at hp
      rw [if_pos hp, List.mem_singleton]
      cases c
      simp only at hda hla hdv hlv
      subst hdv
      subst hlv
      rfl

/-! ## Claim theorems about the differ -/

/-- C2: for an attribute present in both entry lists, a change entry is
recorded exactly when the raw values differ and they are not two
numerically-equal floats; the entry takes `old_value` from the remote
(DME) entry and `new_value` from the local entry.  Concretely, "3"
versus "3.0" yields no change entry, while "3" versus "3a" yields one. -/
theorem C2_value_comparison :
    (∀ (meta_dme meta_local : List Entry) (c : Change),
      c ∈ changed_entries meta_dme meta_local ↔
        (∃ e ∈ meta_dme, e.attr = c.attr ∧ e.value = c.old_value) ∧
        (∃ e ∈ meta_local, e.attr = c.attr ∧ e.value = c.new_value) ∧
        c.new_value ≠ c.old_value ∧
        ¬ ∃ x y, py_float c.old_value = some x ∧ py_float c.new_value = some y ∧
            num_val x = num_val y) ∧
    changed_entries [⟨"x", "3"⟩] [⟨"x", "3.0"⟩] = [] ∧
    changed_entries [⟨"x", "3"⟩] [⟨"x", "3a"⟩] = [⟨"x", "3", "3a"⟩] := by
  refine ⟨?_, by decide, by decide⟩
  intro meta_dme meta_local c
  rw [changed_entries_mem, prints_change_iff]

/-- C3: `only_remote` is exactly the attribute names of remote entries
with no same-named local entry, `only_local` symmetrically, and `both`
has one element per matching remote-entry × local-entry pair with equal
attribute names (name equality is case-sensitive String equality). -/
theorem C3_field_partition (meta_dme meta_local : List Entry) :
    (∀ a, a ∈ (get_different_fields meta_dme meta_local).1 ↔
        (∃ e ∈ meta_dme, e.attr = a) ∧ ¬ ∃ e ∈ meta_local, e.attr = a) ∧
    (∀ a, a ∈ (get_different_fields meta_dme meta_local).2.1 ↔
        (∃ e ∈ meta_local, e.attr = a) ∧ ¬ ∃ e ∈ meta_dme, e.attr = a) ∧
    (get_different_fields meta_dme meta_local).2.2 =
      ((meta_dme ×ˢ meta_local).filter (fun p => p.1.attr == p.2.attr)).map
        (fun p => p.1.attr) :=
  ⟨fun a => gdf_only_dme_mem _ _ a, fun a => gdf_only_local_mem _ _ a,
    gdf_both_eq_product _ _⟩

/-- C4: diffing a metadata document against itself (attribute names
unique within a document, as the data model assumes) yields empty
`only_remote` and `only_local`, no change entries, and `both` covering
exactly the attribute names of the document. -/
theorem C4_diff_self (D : List Entry) (h : (D.map Entry.attr).Nodup) :
    (get_different_fields D D).1 = [] ∧
    (get_different_fields D D).2.1 = [] ∧
    (∀ a, a ∈ (get_different_fields D D).2.2 ↔ a ∈ D.map Entry.attr) ∧
    changed_entries D D = [] := by
  refine ⟨?_, ?_, ?_, ?_⟩
  · rw [List.eq_nil_iff_forall_not_mem]
    intro a ha
    rcases (gdf_only_dme_mem D D a).mp ha with ⟨he, hno⟩
    exact hno he
  · rw [List.eq_nil_iff_forall_not_mem]
    intro a ha
    rcases (gdf_only_local_mem D D a).mp ha with ⟨he, hno⟩
    exact hno he
  · intro a
    rw [gdf_both_mem]
    simp only [List.mem_map]
    constructor
    · rintro ⟨⟨e, he, rfl⟩, _⟩
      exact ⟨e, he, rfl⟩
    · rintro ⟨e, he, rfl⟩
      exact ⟨⟨e, he, rfl⟩, ⟨e, he, rfl⟩⟩
  · rw [List.eq_nil_iff_forall_not_mem]
    intro c hc
    rcases (changed_entries_mem D D c).mp hc with
      ⟨⟨e_d, hd, hda, hdv⟩, ⟨e_l, hl, hla, hlv⟩, hp⟩
    have hde : e_d = e_l :=
      List.inj_on_of_nodup_map h hd hl (by rw [hda, hla])
    rcases (prints_change_iff _ _).mp hp with ⟨hne, _⟩
    exact hne (by rw [← hlv, ← hdv, hde])

/-- Witness for C4 at a concrete two-attribute document. -/
theorem C4_diff_self_witness :
    (([⟨"a", "1"⟩, ⟨"b", "2"⟩] : List Entry).map Entry.attr).Nodup ∧
    changed_entries [⟨"a", "1"⟩, ⟨"b", "2"⟩] [⟨"a", "1"⟩, ⟨"b", "2"⟩] = [] :=
  ⟨by decide, (C4_diff_self [⟨"a", "1"⟩, ⟨"b", "2"⟩] (by decide)).2.2.2⟩

/-! ## Path mapper (validate.py lines 189-195) -/

/-- Semantics of the Python call `path.replace("//", "/")`: one
left-to-right pass replacing each non-overlapping occurrence of two
consecutive separators by a single one. -/
def replace_double_sep : List Char → List Char
  | [] => []
  | [c] => [c]
  | c1 :: c2 :: rest =>
    if c1 = '/' ∧ c2 = '/' then '/' :: replace_double_sep rest
    else c1 :: replace_double_sep (c2 :: rest)

/-- Embedding of `get_dme_directory(full_path, initial_path, vault)`:
concatenate `vault`, a separator and the suffix of `full_path` after
the length of `initial_path`, run the single-pass double-separator
replacement, then prepend a separator when the first character is not
already one (the source reads `path[0]`; the string is never empty
because a separator was concatenated in). -/
def get_dme_directory (full_path initial_path vault : List Char) : List Char :=
  let path := vault ++ '/' :: full_path.drop initial_path.length
  let path2 := replace_double_sep path
  if path2.head? = some '/' then path2 else '/' :: path2

/-- Whether a string contains two consecutive separators. -/
def has_double_sep : List Char → Bool
  | c1 :: c2 :: rest => (c1 == '/' && c2 == '/') || has_double_sep (c2 :: rest)
  | _ => false

/-- Whether a string contains three consecutive separators. -/
def has_triple_sep : List Char → Bool
  | c1 :: c2 :: c3 :: rest =>
    (c1 == '/' && c2 == '/' && c3 == '/') || has_triple_sep (c2 :: c3 :: rest)
  | _ => false

/-! ## Path mapper lemmas -/

theorem replace_double_sep_cons (c : Char) (t : List Char) :
    ∃ t', replace_double_sep (c :: t) = c :: t' := by
  cases t with
  | nil => exact ⟨[], rfl⟩
  | cons d u =>
    by_cases h : c = '/' ∧ d = '/'
    · refine ⟨replace_double_sep u, ?_⟩
      rw [replace_double_sep, if_pos h, h.1]
    · exact ⟨replace_double_sep (d :: u), by rw [replace_double_sep, if_neg h]⟩

theorem has_triple_sep_tail (c : Char) (t : List Char)
    (h : has_triple_sep (c :: t) = false) : has_triple_sep t = false := by
  match t with
  | [] => rfl
  | [d] => rfl
  | d :: e :: v =>
    rw [has_triple_sep, Bool.or_eq_false_iff] at h
    exact h.2

theorem replace_double_sep_no_double (s : List Char)
    (h : has_triple_sep s = false) :
    has_double_sep (replace_double_sep s) = false := by
  induction s using replace_double_sep.induct with
  | case1 => rfl
  | case2 c => rfl
  | case3 c1 c2 rest hsep ih =>
    obtain ⟨rfl, rfl⟩ := hsep
    rw [replace_double_sep, if_pos ⟨rfl, rfl⟩]
    match rest, ih with
    | [], _ => rfl
    | c3 :: v, ih =>
      have h3 : has_triple_sep (c3 :: v) = false :=
        has_triple_sep_tail _ _ (has_triple_sep_tail _ _ h)
      rw [has_triple_sep, Bool.or_eq_false_iff] at h
      have hc3 : (c3 == '/') = false := by
        simpa using h.1
      obtain ⟨t', ht'⟩ := replace_double_sep_cons c3 v
      rw [ht', has_double_sep, Bool.or_eq_false_iff]
      refine ⟨by simp [hc3], ?_⟩
      rw [← ht']
      exact ih h3
  | case4 c1 c2 rest hsep ih =>
    rw [replace_double_sep, if_neg hsep]
    obtain ⟨t', ht'⟩ := replace_double_sep_cons c2 rest
    rw [ht', has_double_sep, Bool.or_eq_false_iff]
    have hns : (c1 == '/' && c2 == '/') = false := by
      rw [Bool.and_eq_false_iff]
      by_cases h1 : c1 = '/'
      · right
        rw [beq_eq_false_iff_ne]
        intro h2
        exact hsep ⟨h1, h2⟩
      · left
        rw [beq_eq_false_iff_ne]
        exact h1
    refine ⟨hns, ?_⟩
    rw [← ht']
    exact ih (has_triple_sep_tail _ _ h)

theorem replace_double_sep_head (s : List Char) :
    (replace_double_sep s).head? = s.head? := by
  match s with
  | [] => rfl
  | [c] => rfl
  | c1 :: c2 :: rest =>
    by_cases h : c1 = '/' ∧ c2 = '/'
    · rw [replace_double_sep, if_pos h, h.1]
      rfl
    · rw [replace_double_sep, if_neg h]
      rfl

theorem mapped_head (s : List Char) :
    (if (replace_double_sep s).head? = some '/' then replace_double_sep s
     else '/' :: replace_double_sep s).head? = some '/' := by
  by_cases h : (replace_double_sep s).head? = some '/'
  · rw [if_pos h]
    exact h
  · rw [if_neg h]
    rfl

theorem mapped_no_double (s : List Char) (h3 : has_triple_sep s = false) :
    has_double_sep (if (replace_double_sep s).head? = some '/' then replace_double_sep s
      else '/' :: replace_double_sep s) = false ∧
    (if (replace_double_sep s).head? = some '/' then replace_double_sep s
      else '/' :: replace_double_sep s).tail.head? ≠ some '/' := by
  have hd := replace_double_sep_no_double s h3
  by_cases hh : (replace_double_sep s).head? = some '/'
  · rw [if_pos hh]
    rcases hrep : replace_double_sep s with _ | ⟨e, t⟩
    · rw [hrep] at hh
      cases hh
    · rw [hrep] at hh hd
      have he : e = '/' := by simpa using hh
      subst he
      refine ⟨hd, ?_⟩
      cases t with
      | nil => simp
      | cons d u =>
        rw [has_double_sep, Bool.or_eq_false_iff] at hd
        have hne : ¬ d = '/' := by simpa using hd.1
        simpa using hne
  · rw [if_neg hh]
    rcases hrep : replace_double_sep s with _ | ⟨e, t⟩
    · exact ⟨rfl, by simp⟩
    · rw [hrep] at hh hd
      have he : ¬ e = '/' := by
        intro hcon
        subst hcon
        exact hh rfl
      refine ⟨?_, ?_⟩
      · rw [has_double_sep, Bool.or_eq_false_iff]
        exact ⟨by simp [he], hd⟩
      · simpa using he

/-! ## Claim theorems about the path mapper -/

/-- C8 (amended): the mapped path always begins with a separator, and
whenever the concatenation `vault + "/" + full_path[len(initial):]`
contains no run of three or more separators, the single-pass
replacement leaves no doubled separator anywhere and the result begins
with exactly one leading separator.  (The original claim fails when a
run of three or more separators is present: the single pass of
`replace` does not fully collapse such runs, see the counterexample.) -/
theorem C8_path_mapper (full_path initial_path vault : List Char) :
    (get_dme_directory full_path initial_path vault).head? = some '/' ∧
    (has_triple_sep (vault ++ '/' :: full_path.drop initial_path.length) = false →
      has_double_sep (get_dme_directory full_path initial_path vault) = false ∧
      (get_dme_directory full_path initial_path vault).tail.head? ≠ some '/') :=
  ⟨mapped_head _, fun h3 => mapped_no_double _ h3⟩

/-- Witness for C8 at a concrete triple with a doubled but not tripled
separator in the concatenation. -/
theorem C8_path_mapper_witness :
    has_triple_sep ("CCBR_Archive".toList ++ '/' ::
      "/r/a".toList.drop "/r".toList.length) = false ∧
    (get_dme_directory "/r/a".toList "/r".toList "CCBR_Archive".toList).head? = some '/' ∧
    has_double_sep
      (get_dme_directory "/r/a".toList "/r".toList "CCBR_Archive".toList) = false ∧
    (get_dme_directory "/r/a".toList "/r".toList
      "CCBR_Archive".toList).tail.head? ≠ some '/' := by
  refine ⟨by decide, (C8_path_mapper "/r/a".toList "/r".toList "CCBR_Archive".toList).1,
    ?_, ?_⟩
  · exact ((C8_path_mapper "/r/a".toList "/r".toList "CCBR_Archive".toList).2
      (by decide)).1
  · exact ((C8_path_mapper "/r/a".toList "/r".toList "CCBR_Archive".toList).2
      (by decide)).2

/-- Counterexample for C8 as stated: with a run of four separators in
the suffix the result keeps a doubled separator, and with an empty
vault and a doubled separator in the suffix the result begins with two
separators rather than exactly one. -/
theorem C8_counterexample :
    has_double_sep
      (get_dme_directory "/r////x".toList "/r".toList "CCBR_Archive".toList) = true ∧
    (get_dme_directory "//a".toList "".toList "".toList).tail.head? = some '/' := by
  exact ⟨by decide, by decide⟩

/-- C9 counterexample: on the spec example inputs the mapper does not
return the claimed string (it prepends a leading separator). -/
theorem C9_counterexample :
    get_dme_directory "/scratch/DME/PI_Lab_Foo".toList "/scratch/DME".toList
      "CCBR_Archive".toList ≠ "CCBR_Archive/PI_Lab_Foo".toList := by
  decide

/-- C9 (amended): on the spec example inputs the mapper returns the
string "/CCBR_Archive/PI_Lab_Foo", with a leading separator. -/
theorem C9_mapped_example :
    get_dme_directory "/scratch/DME/PI_Lab_Foo".toList "/scratch/DME".toList
      "CCBR_Archive".toList = "/CCBR_Archive/PI_Lab_Foo".toList := by
  decide

/-! ## Argument validation (validate.py lines 100-113) -/

/-- The configured allow-list of vault names, `config[".vaults"]`. -/
def config_vaults : List (List Char) :=
  ["CCBR_Archive".toList, "CCBR_EXT_Archive".toList, "CCR_DTB_Archive".toList]

/-- Failure modes of `validate_args`: the vault assertion
(AssertionError) or the directory-existence check (exit 1); both
terminate the process with a non-zero status. -/
inductive ArgError where
  | assertionError
  | pathError
deriving DecidableEq, Repr

/-- Embedding of `validate_args((ipath, vault))`: every separator
character is removed from the vault (the Python
`vault.replace("/", "")`), the stripped name must be in the allow-list
(the assert), and the input path must be an existing directory
(`path_exists`); the returned vault is the stripped name.  The
existence of the input directory is abstracted by the `dir_is_dir`
oracle. -/
def validate_args (dir_is_dir : List Char → Bool) (ipath vault : List Char) :
    Except ArgError (List Char × List Char) :=
  let vault2 := vault.filter (fun c => c != '/')
  if config_vaults.contains vault2 then
    if dir_is_dir ipath then Except.ok (ipath, vault2)
    else Except.error ArgError.pathError
  else Except.error ArgError.assertionError

/-- C10: with an accessible input directory, validation succeeds
exactly when the slash-stripped vault name is in the allow-list, the
vault returned (and used downstream) is the stripped name, and the
assertion rejects exactly the vaults whose stripped form is outside
the allow-list. -/
theorem C10_vault_stripping (dir_is_dir : List Char → Bool) (ipath vault : List Char)
    (hdir : dir_is_dir ipath = true) :
    (validate_args dir_is_dir ipath vault =
        Except.ok (ipath, vault.filter (fun c => c != '/')) ↔
      vault.filter (fun c => c != '/') ∈ config_vaults) ∧
    (validate_args dir_is_dir ipath vault = Except.error ArgError.assertionError ↔
      vault.filter (fun c => c != '/') ∉ config_vaults) := by
  dsimp only [validate_args]
  by_cases h : vault.filter (fun c => c != '/') ∈ config_vaults
  · rw [if_pos (by simpa using h), if_pos hdir]
    simp [h]
  · rw [if_neg (by simpa using h)]
    simp [h]

/-- Witness for C10: a trailing or leading separator is stripped off a
valid vault name and validation succeeds with the stripped name, while
an unknown vault is rejected by the assertion. -/
theorem C10_vault_stripping_witness :
    validate_args (fun _ => true) "/in".toList "CCBR_Archive/".toList =
        Except.ok ("/in".toList, "CCBR_Archive/".toList.filter (fun c => c != '/')) ∧
    "CCBR_Archive/".toList.filter (fun c => c != '/') = "CCBR_Archive".toList ∧
    validate_args (fun _ => true) "/in".toList "Not_A_Vault".toList =
        Except.error ArgError.assertionError :=
  ⟨(C10_vault_stripping (fun _ => true) "/in".toList "CCBR_Archive/".toList rfl).1.mpr
      (by decide),
    by decide,
    (C10_vault_stripping (fun _ => true) "/in".toList "Not_A_Vault".toList rfl).2.mpr
      (by decide)⟩

/-! ## Local filesystem abstraction and hierarchy walker (validate.py lines 126-187) -/

/-- Abstraction of the local directory tree: the names in a directory
(`os.listdir`) and the parsed content of a metadata JSON file
(`json2dict`).  Reading is total here: the walker claims under study
concern the match-counting and enumeration logic, not I/O failures. -/
structure FS where
  listdir : List Char → List (List Char)
  readDoc : List Char → Doc

/-- Python `pat in s`: substring containment. -/
def contains_sub (pat : List Char) : List Char → Bool
  | [] => pat.isEmpty
  | c :: rest => pat.isPrefixOf (c :: rest) || contains_sub pat rest

/-- The sidecar marker; the source tests it with the Python `in`
operator, i.e. substring containment, not a suffix test. -/
def metadata_marker : List Char := ".metadata.json".toList

def pi_lab_marker : List Char := "PI_Lab".toList

def project_marker : List Char := "Project_".toList

def primary_analysis_marker : List Char := "Primary_Analysis_".toList

def sample_marker : List Char := "Sample_".toList

/-- The listing filter
`[f for f in os.listdir(path) if marker in f and '.metadata.json' in f]`. -/
def sidecar_matches (marker : List Char) (files : List (List Char)) :
    List (List Char) :=
  files.filter (fun f => contains_sub marker f && contains_sub metadata_marker f)

/-- Python `s.split(pat)[0]`: the prefix of `s` before the first
occurrence of `pat`, the whole of `s` when `pat` does not occur. -/
def before_first (pat : List Char) : List Char → List Char
  | [] => []
  | c :: rest => if pat.isPrefixOf (c :: rest) then [] else c :: before_first pat rest

/-- A uniqueness failure of the walker: the source prints an error for
the named level and exits with the recorded status (always 1). -/
inductive RunError where
  | uniqueness (level : String) (exit_code : Nat)
deriving DecidableEq, Repr

/-- The process exit status carried by a walker error. -/
def RunError.code : RunError → Nat
  | .uniqueness _ c => c

/-- Embedding of `get_pi_lab(path)`: the listing must contain exactly
one name containing both "PI_Lab" and ".metadata.json", else the
process exits with status 1; on success return the parsed sidecar and
the sibling data directory (file name cut at the first dot). -/
def get_pi_lab (fs : FS) (path : List Char) : Except RunError (Doc × List Char) :=
  match sidecar_matches pi_lab_marker (fs.listdir path) with
  | [f] => Except.ok (fs.readDoc (path ++ '/' :: f), path ++ '/' :: before_first ['.'] f)
  | _ => Except.error (RunError.uniqueness "PI_Lab" 1)

/-- Embedding of `get_project(path)`, marker "Project_". -/
def get_project (fs : FS) (path : List Char) : Except RunError (Doc × List Char) :=
  match sidecar_matches project_marker (fs.listdir path) with
  | [f] => Except.ok (fs.readDoc (path ++ '/' :: f), path ++ '/' :: before_first ['.'] f)
  | _ => Except.error (RunError.uniqueness "Project" 1)

/-- Embedding of `get_analysis_objects(path)`: every name containing
".metadata.json" (no marker exclusion), paired with the data directory
named by the part before the first occurrence of ".metadata.json". -/
def get_analysis_objects (fs : FS) (path : List Char) :
    List Doc × List (List Char) :=
  let files := (fs.listdir path).filter (fun f => contains_sub metadata_marker f)
  let directories := files.map (fun f => path ++ '/' :: before_first metadata_marker f)
  let metas := files.map (fun f => fs.readDoc (path ++ '/' :: f))
  (metas, directories)

/-- Embedding of `get_analysis(path)`, marker "Primary_Analysis_",
with the secondary object scan of the analysis directory. -/
def get_analysis (fs : FS) (path : List Char) :
    Except RunError (Doc × List Char × List Doc × List (List Char)) :=
  match sidecar_matches primary_analysis_marker (fs.listdir path) with
  | [f] =>
    let directory := path ++ '/' :: before_first ['.'] f
    let objs := get_analysis_objects fs directory
    Except.ok (fs.readDoc (path ++ '/' :: f), directory, objs.1, objs.2)
  | _ => Except.error (RunError.uniqueness "Primary_Analysis" 1)

/-- Embedding of `get_sample_objects(path)`: textually the same scan
as `get_analysis_objects` (the source duplicates the code). -/
def get_sample_objects (fs : FS) (path : List Char) :
    List Doc × List (List Char) :=
  let files := (fs.listdir path).filter (fun f => contains_sub metadata_marker f)
  let directories := files.map (fun f => path ++ '/' :: before_first metadata_marker f)
  let metas := files.map (fun f => fs.readDoc (path ++ '/' :: f))
  (metas, directories)

/-- Embedding of `get_samples(path)`: every match of marker "Sample_"
is accepted — no uniqueness requirement — and each sample directory is
scanned for its data objects. -/
def get_samples (fs : FS) (path : List Char) :
    List Doc × List (List Char) × List (List Doc) × List (List (List Char)) :=
  let files := sidecar_matches sample_marker (fs.listdir path)
  let directories := files.map (fun f => path ++ '/' :: before_first ['.'] f)
  let metas := files.map (fun f => fs.readDoc (path ++ '/' :: f))
  let objs := directories.map (fun d => get_sample_objects fs d)
  (metas, directories, objs.map (fun o => o.1), objs.map (fun o => o.2))

/-! ## Claim theorems about the walker -/

/-- C6: at the PI_Lab, Project and Primary_Analysis levels the walker
fails, with a uniqueness error whose exit status is non-zero, exactly
when the number of marker matches differs from one; at the Sample
level zero-to-many matches are accepted and all matches are
enumerated, without any error. -/
theorem C6_uniqueness (fs : FS) (path : List Char) :
    (get_pi_lab fs path = Except.error (RunError.uniqueness "PI_Lab" 1) ↔
      (sidecar_matches pi_lab_marker (fs.listdir path)).length ≠ 1) ∧
    (get_project fs path = Except.error (RunError.uniqueness "Project" 1) ↔
      (sidecar_matches project_marker (fs.listdir path)).length ≠ 1) ∧
    (get_analysis fs path = Except.error (RunError.uniqueness "Primary_Analysis" 1) ↔
      (sidecar_matches primary_analysis_marker (fs.listdir path)).length ≠ 1) ∧
    (RunError.uniqueness "PI_Lab" 1).code ≠ 0 ∧
    (get_samples fs path).2.1 =
      (sidecar_matches sample_marker (fs.listdir path)).map
        (fun f => path ++ '/' :: before_first ['.'] f) ∧
    (get_samples fs path).1 =
      (sidecar_matches sample_marker (fs.listdir path)).map
        (fun f => fs.readDoc (path ++ '/' :: f)) := by
  refine ⟨?_, ?_, ?_, by decide, rfl, rfl⟩
  · dsimp only [get_pi_lab]
    rcases sidecar_matches pi_lab_marker (fs.listdir path) with _ | ⟨f, _ | ⟨g, t⟩⟩ <;> simp
  · dsimp only [get_project]
    rcases sidecar_matches project_marker (fs.listdir path) with _ | ⟨f, _ | ⟨g, t⟩⟩ <;> simp
  · dsimp only [get_analysis]
    rcases sidecar_matches primary_analysis_marker (fs.listdir path) with
      _ | ⟨f, _ | ⟨g, t⟩⟩ <;> simp

/-- Definition following the claim wording of C7: the data-object
sidecars the claim describes — names with suffix ".metadata.json" that
are not one of the four level-marker files. -/
def spec_data_object_files (files : List (List Char)) : List (List Char) :=
  files.filter (fun f => metadata_marker.isSuffixOf f &&
    !(contains_sub pi_lab_marker f || contains_sub project_marker f ||
      contains_sub primary_analysis_marker f || contains_sub sample_marker f))

/-- A one-directory local tree whose analysis directory contains a
sidecar named like a Sample level marker. -/
def fs_c7 : FS :=
  ⟨fun _ => ["Sample_A.metadata.json".toList], fun _ => ⟨[]⟩⟩

/-- C7 counterexample: the secondary scan collects the level-marker
file "Sample_A.metadata.json" as a data object (the source filters
only on substring ".metadata.json" and never excludes markers), while
the claim prescribes the empty collection for this directory. -/
theorem C7_counterexample :
    (get_analysis_objects fs_c7 "/x".toList).2 = ["/x/Sample_A".toList] ∧
    spec_data_object_files (fs_c7.listdir "/x".toList) = [] :=
  ⟨by decide, by decide⟩

/-- C7 (amended): the data-object scan of a node directory collects
exactly the files whose name contains ".metadata.json" as a substring
— including names carrying a level marker — pairing each, in listing
order, with the data directory named by the part of the file name
before the first occurrence of ".metadata.json"; the analysis-object
and sample-object scans are identical. -/
theorem C7_data_objects (fs : FS) (path : List Char) :
    ((get_analysis_objects fs path).1 =
      ((fs.listdir path).filter (fun f => contains_sub metadata_marker f)).map
        (fun f => fs.readDoc (path ++ '/' :: f)) ∧
     (∀ d, d ∈ (get_analysis_objects fs path).2 ↔
       ∃ f ∈ fs.listdir path, contains_sub metadata_marker f = true ∧
         d = path ++ '/' :: before_first metadata_marker f)) ∧
    ((get_sample_objects fs path).1 =
      ((fs.listdir path).filter (fun f => contains_sub metadata_marker f)).map
        (fun f => fs.readDoc (path ++ '/' :: f)) ∧
     (∀ d, d ∈ (get_sample_objects fs path).2 ↔
       ∃ f ∈ fs.listdir path, contains_sub metadata_marker f = true ∧
         d = path ++ '/' :: before_first metadata_marker f)) := by
  refine ⟨⟨rfl, ?_⟩, ⟨rfl, ?_⟩⟩
  · intro d
    simp only [get_analysis_objects, List.mem_map, List.mem_filter]
    constructor
    · rintro ⟨f, ⟨hf, hm⟩, rfl⟩
      exact ⟨f, hf, hm, rfl⟩
    · rintro ⟨f, hf, hm, rfl⟩
      exact ⟨f, ⟨hf, hm⟩, rfl⟩
  · intro d
    simp only [get_sample_objects, List.mem_map, List.mem_filter]
    constructor
    · rintro ⟨f, ⟨hf, hm⟩, rfl⟩
      exact ⟨f, hf, hm, rfl⟩
    · rintro ⟨f, hf, hm, rfl⟩
      exact ⟨f, ⟨hf, hm⟩, rfl⟩

/-! ## Remote catalog and reconciliation driver (validate.py lines 251-321) -/

/-- Modelled from the spec: the remote-catalog queries
`get_collection_dme_meta` and `get_dataObject_dme_meta(..., in_pairs=False)`
that `evaluate_metadata_differences` invokes are not present in
src/dme_utils.py in that form — the session layer is declared an
external collaborator (spec sections 1 and 6).  Per the spec they
return the metadata document registered at a remote path, or an empty
result meaning "node not yet registered"; `none` models the empty
result (the source tests `len(meta_dme) == 0`). -/
structure Remote where
  collection : List Char → Option Doc
  dataObject : List Char → Option Doc

/-- One line of the report printed by the run.  Cosmetic lines (the
banner and the session URL) are not modelled. -/
inductive Event where
  | levelHeader (level : String) (name : List Char)
  | objectHeader (name : List Char)
  | notExists (level : String)
  | existsWarning (level : String)
  | counts (only_dme only_local both : Nat)
  | appended (attr value : String)
  | modified (attr old_value new_value : String)
deriving DecidableEq, Repr

/-- Python `path.split('/')[-1]`: the component after the last
separator. -/
def last_component (p : List Char) : List Char :=
  p.foldl (fun acc c => if c = '/' then [] else acc ++ [c]) []

/-- The appended-attribute lines printed by the second loop of
`evaluate_differences`. -/
def appended_entries (meta_local : List Entry) (items_only_local : List String) :
    List Event :=
  items_only_local.flatMap (fun att_i =>
    meta_local.flatMap (fun e =>
      if e.attr == att_i then [Event.appended e.attr e.value] else []))

/-- Embedding of `evaluate_differences(meta_dme, meta_local)` as the
sequence of report lines it prints: the three counts, the
appended-attribute lines, then the modified-attribute lines. -/
def evaluate_differences (meta_dme meta_local : List Entry) : List Event :=
  let r := get_different_fields meta_dme meta_local
  Event.counts r.1.length r.2.1.length r.2.2.length ::
    (appended_entries meta_local r.2.1 ++
      (changed_entries meta_dme meta_local).map
        (fun c => Event.modified c.attr c.old_value c.new_value))

/-- Embedding of
`evaluate_metadata_differences(session, meta_dir, meta, level, is_collection)`:
fetch the remote document with the collection or data-object query,
report "does not exist on DME" on an empty result, otherwise warn that
the node exists and print the differences; returns the printed lines
together with the existence flag the caller branches on. -/
def evaluate_metadata_differences (remote : Remote) (meta_dir : List Char)
    (meta : Doc) (level : String) (is_collection : Bool) : List Event × Bool :=
  let meta_dme := if is_collection then remote.collection meta_dir
    else remote.dataObject meta_dir
  match meta_dme with
  | none => ([Event.notExists level], false)
  | some d =>
    (Event.existsWarning level ::
      evaluate_differences d.metadataEntries meta.metadataEntries, true)

/-- The data-object loops of `main` (lines 304-307 and 317-320): for
each object, its header line then the check of its mapped remote path.
The source indexes two parallel lists of equal length; the recursion
walks them simultaneously. -/
def check_objects (remote : Remote) (ipath vault : List Char) :
    List Doc → List (List Char) → List Event
  | o :: os, od :: ods =>
    (Event.objectHeader (last_component od) ::
      (evaluate_metadata_differences remote (get_dme_directory od ipath vault) o
        "DataObject" false).1) ++ check_objects remote ipath vault os ods
  | _, _ => []

/-- The body of one iteration of the sample loop of `main` (lines
310-320): the header, the sample check, and — only when the sample
exists remotely — its data-object loop. -/
def check_sample (remote : Remote) (ipath vault : List Char) (m : Doc)
    (d : List Char) (objs : List Doc) (objs_dir : List (List Char)) : List Event :=
  Event.levelHeader "Sample" (last_component d) ::
    (let r := evaluate_metadata_differences remote (get_dme_directory d ipath vault) m
        "Sample" true
     r.1 ++ if r.2 then check_objects remote ipath vault objs objs_dir else [])

/-- The sample loop of `main`: the source indexes four parallel lists
of equal length; the recursion walks them simultaneously. -/
def check_samples (remote : Remote) (ipath vault : List Char) :
    List Doc → List (List Char) → List (List Doc) → List (List (List Char)) →
      List Event
  | m :: ms, d :: ds, o :: os, od :: ods =>
    check_sample remote ipath vault m d o od ++
      check_samples remote ipath vault ms ds os ods
  | _, _, _, _ => []

/-- The hierarchy data `main` reads before any remote check
(validate.py lines 274-277). -/
structure Hier where
  pi_meta : Doc
  pi_dir : List Char
  proj_meta : Doc
  proj_dir : List Char
  analysis_meta : Doc
  analysis_dir : List Char
  analysis_objs : List Doc
  analysis_objs_dir : List (List Char)
  samples_meta : List Doc
  samples_dir : List (List Char)
  sample_objs : List (List Doc)
  sample_objs_dir : List (List (List Char))
deriving Repr

/-- The walking phase of `main`: the four getters all run before any
remote check. -/
def walk (fs : FS) (ipath : List Char) : Except RunError Hier := do
  let pi ← get_pi_lab fs ipath
  let proj ← get_project fs pi.2
  let ana ← get_analysis fs proj.2
  let samples := get_samples fs proj.2
  Except.ok ⟨pi.1, pi.2, proj.1, proj.2, ana.1, ana.2.1, ana.2.2.1, ana.2.2.2,
    samples.1, samples.2.1, samples.2.2.1, samples.2.2.2⟩

/-- The checking phase of `main` (lines 284-321): the PI_Lab check;
when it exists remotely, the Project check; when that exists, the
Primary Analysis check, its data-object loop gated on the analysis
existing, and then the sample loop — gated only on the Project check,
not on the analysis outcome. -/
def drive (remote : Remote) (ipath vault : List Char) (h : Hier) : List Event :=
  let piR := evaluate_metadata_differences remote
    (get_dme_directory h.pi_dir ipath vault) h.pi_meta "PI_Lab" true
  Event.levelHeader "PI_Lab" (last_component h.pi_dir) ::
    (piR.1 ++
      if piR.2 then
        let projR := evaluate_metadata_differences remote
          (get_dme_directory h.proj_dir ipath vault) h.proj_meta "Project" true
        Event.levelHeader "Project" (last_component h.proj_dir) ::
          (projR.1 ++
            if projR.2 then
              let anaR := evaluate_metadata_differences remote
                (get_dme_directory h.analysis_dir ipath vault) h.analysis_meta
                "Primary Analysis" true
              Event.levelHeader "Primary Analysis" (last_component h.analysis_dir) ::
                (anaR.1 ++
                  ((if anaR.2 then
                    check_objects remote ipath vault h.analysis_objs h.analysis_objs_dir
                  else []) ++
                  check_samples remote ipath vault h.samples_meta h.samples_dir
                    h.sample_objs h.sample_objs_dir))
            else [])
      else [])

/-- Embedding of `main` after argument validation: walk, then drive.
A normal return models process exit status 0; a walker error models a
non-zero exit. -/
def main (fs : FS) (remote : Remote) (ipath vault : List Char) :
    Except RunError (List Event) :=
  (walk fs ipath).map (fun h => drive remote ipath vault h)

/-- Whether an event is the Sample-level header line. -/
def Event.isSampleHeader : Event → Bool
  | .levelHeader l _ => l == "Sample"
  | _ => false

/-- Whether an event is a Data-Object header line. -/
def Event.isObjHeader : Event → Bool
  | .objectHeader _ => true
  | _ => false

/-! ## Counting lemmas for the driver -/

theorem evaluate_differences_no_header (md ml : List Entry) :
    ∀ e ∈ evaluate_differences md ml,
      Event.isSampleHeader e = false ∧ Event.isObjHeader e = false := by
  intro e he
  simp only [evaluate_differences, appended_entries, List.mem_cons, List.mem_append,
    List.mem_flatMap, List.mem_map] at he
  rcases he with rfl | ⟨⟨a, _, f, _, hif⟩ | ⟨c, _, rfl⟩⟩
  · exact ⟨rfl, rfl⟩
  · by_cases hb : (f.attr == a) = true
    · rw [if_pos hb, List.mem_singleton] at hif
      subst hif
      exact ⟨rfl, rfl⟩
    · rw [if_neg hb] at hif
      cases hif
  · exact ⟨rfl, rfl⟩

theorem emd_no_header (remote : Remote) (dir : List Char) (m : Doc) (lvl : String)
    (b : Bool) :
    ∀ e ∈ (evaluate_metadata_differences remote dir m lvl b).1,
      Event.isSampleHeader e = false ∧ Event.isObjHeader e = false := by
  intro e he
  dsimp only [evaluate_metadata_differences] at he
  rcases hq : (if b then remote.collection dir else remote.dataObject dir) with _ | d
  · rw [hq] at he
    simp only [List.mem_singleton] at he
    subst he
    exact ⟨rfl, rfl⟩
  · rw [hq] at he
    simp only [List.mem_cons] at he
    rcases he with rfl | he
    · exact ⟨rfl, rfl⟩
    · exact evaluate_differences_no_header _ _ e he

theorem countP_emd_sample (remote : Remote) (dir : List Char) (m : Doc)
    (lvl : String) (b : Bool) :
    ((evaluate_metadata_differences remote dir m lvl b).1).countP
      Event.isSampleHeader = 0 :=
  List.countP_eq_zero.mpr (fun e he => by
    simp [(emd_no_header remote dir m lvl b e he).1])

theorem countP_emd_obj (remote : Remote) (dir : List Char) (m : Doc)
    (lvl : String) (b : Bool) :
    ((evaluate_metadata_differences remote dir m lvl b).1).countP
      Event.isObjHeader = 0 :=
  List.countP_eq_zero.mpr (fun e he => by
    simp [(emd_no_header remote dir m lvl b e he).2])

theorem check_objects_counts (remote : Remote) (ipath vault : List Char) :
    ∀ (os : List Doc) (ods : List (List Char)),
      (check_objects remote ipath vault os ods).countP Event.isSampleHeader = 0 ∧
      (check_objects remote ipath vault os ods).countP Event.isObjHeader =
        min os.length ods.length := by
  intro os
  induction os with
  | nil =>
    intro ods
    cases ods <;> exact ⟨rfl, by simp [check_objects]⟩
  | cons o os ih =>
    intro ods
    cases ods with
    | nil => exact ⟨rfl, by simp [check_objects]⟩
    | cons od ods =>
      rw [check_objects]
      refine ⟨?_, ?_⟩
      · rw [List.countP_append, List.countP_cons, countP_emd_sample, (ih ods).1]
        rfl
      · rw [List.countP_append, List.countP_cons, countP_emd_obj, (ih ods).2]
        simp [Event.isObjHeader, Nat.succ_min_succ, Nat.add_comm]

theorem check_sample_counts (remote : Remote) (ipath vault : List Char) (m : Doc)
    (d : List Char) (objs : List Doc) (objs_dir : List (List Char)) :
    (check_sample remote ipath vault m d objs objs_dir).countP
      Event.isSampleHeader = 1 ∧
    (check_sample remote ipath vault m d objs objs_dir).countP
      Event.isObjHeader =
      if (remote.collection (get_dme_directory d ipath vault)).isSome then
        min objs.length objs_dir.length
      else 0 := by
  rcases hq : remote.collection (get_dme_directory d ipath vault) with _ | doc
  · have hemd : evaluate_metadata_differences remote (get_dme_directory d ipath vault)
        m "Sample" true = ([Event.notExists "Sample"], false) := by
      dsimp only [evaluate_metadata_differences]
      rw [hq]
      rfl
    dsimp only [check_sample]
    rw [hemd]
    simp [Event.isSampleHeader, Event.isObjHeader]
  · have hemd : evaluate_metadata_differences remote (get_dme_directory d ipath vault)
        m "Sample" true =
        (Event.existsWarning "Sample" ::
          evaluate_differences doc.metadataEntries m.metadataEntries, true) := by
      dsimp only [evaluate_metadata_differences]
      rw [hq]
      rfl
    have h1 : (evaluate_differences doc.metadataEntries m.metadataEntries).countP
        Event.isSampleHeader = 0 :=
      List.countP_eq_zero.mpr (fun e he => by
        simp [(evaluate_differences_no_header _ _ e he).1])
    have h2 : (evaluate_differences doc.metadataEntries m.metadataEntries).countP
        Event.isObjHeader = 0 :=
      List.countP_eq_zero.mpr (fun e he => by
        simp [(evaluate_differences_no_header _ _ e he).2])
    dsimp only [check_sample]
    rw [hemd]
    simp [List.countP_append, List.countP_cons, h1, h2, Event.isSampleHeader,
      Event.isObjHeader, (check_objects_counts remote ipath vault objs objs_dir).1,
      (check_objects_counts remote ipath vault objs objs_dir).2]

theorem check_samples_counts (remote : Remote) (ipath vault : List Char) :
    ∀ (ms : List Doc) (ds : List (List Char)) (os : List (List Doc))
      (ods : List (List (List Char))),
      ds.length = ms.length → os.length = ms.length → ods.length = ms.length →
      (∀ p ∈ os.zip ods, List.length (Prod.fst p) = List.length (Prod.snd p)) →
      (check_samples remote ipath vault ms ds os ods).countP Event.isSampleHeader =
        ms.length ∧
      (check_samples remote ipath vault ms ds os ods).countP Event.isObjHeader =
        ((ds.zip os).map (fun p =>
          if (remote.collection (get_dme_directory p.1 ipath vault)).isSome then
            p.2.length else 0)).sum := by
  intro ms
  induction ms with
  | nil =>
    intro ds os ods h1 h2 h3 _
    simp only [List.length_nil] at h1 h2 h3
    rw [List.length_eq_zero] at h1 h2 h3
    subst h1
    subst h2
    subst h3
    exact ⟨rfl, rfl⟩
  | cons m ms ih =>
    intro ds os ods h1 h2 h3 h4
    cases ds with
    | nil => simp at h1
    | cons d ds =>
      cases os with
      | nil => simp at h2
      | cons o os =>
        cases ods with
        | nil => simp at h3
        | cons od ods =>
          simp only [List.length_cons, Nat.add_right_cancel_iff] at h1 h2 h3
          have hhead : o.length = od.length :=
            h4 (o, od) (by simp [List.zip_cons_cons])
          have htail : ∀ p ∈ os.zip ods,
              List.length (Prod.fst p) = List.length (Prod.snd p) :=
            fun p hp => h4 p (by simp [List.zip_cons_cons, hp])
          have hrec := ih ds os ods h1 h2 h3 htail
          have hcs := check_sample_counts remote ipath vault m d o od
          rw [check_samples]
          constructor
          · rw [List.countP_append, hcs.1, hrec.1, List.length_cons]
            omega
          · rw [List.countP_append, hcs.2, hrec.2, List.zip_cons_cons,
              List.map_cons, List.sum_cons, hhead]
            simp [Nat.min_self]

/-! ## Claim theorems about the driver -/

/-- C5: in a run where the PI_Lab and the Project exist remotely, the
driver emits one Sample header per sample — the count does not depend
on the Primary Analysis outcome — and the Data-Object checks are one
per analysis object when the analysis exists remotely plus, for each
sample that exists remotely, one per data-object child of that sample.
The length hypotheses record that the four sample lists and the two
analysis-object lists are parallel, as `get_samples` and
`get_analysis` construct them. -/
theorem C5_samples_independent (remote : Remote) (ipath vault : List Char) (h : Hier)
    (h1 : h.samples_dir.length = h.samples_meta.length)
    (h2 : h.sample_objs.length = h.samples_meta.length)
    (h3 : h.sample_objs_dir.length = h.samples_meta.length)
    (h4 : ∀ p ∈ h.sample_objs.zip h.sample_objs_dir,
      List.length (Prod.fst p) = List.length (Prod.snd p))
    (h5 : h.analysis_objs_dir.length = h.analysis_objs.length)
    (hpi : (remote.collection (get_dme_directory h.pi_dir ipath vault)).isSome = true)
    (hproj : (remote.collection
      (get_dme_directory h.proj_dir ipath vault)).isSome = true) :
    (drive remote ipath vault h).countP Event.isSampleHeader =
      h.samples_meta.length ∧
    (drive remote ipath vault h).countP Event.isObjHeader =
      (if (remote.collection (get_dme_directory h.analysis_dir ipath vault)).isSome
        then h.analysis_objs.length else 0) +
      ((h.samples_dir.zip h.sample_objs).map (fun p =>
        if (remote.collection (get_dme_directory p.1 ipath vault)).isSome then
          p.2.length else 0)).sum := by
  obtain ⟨dpi, hdpi⟩ := Option.isSome_iff_exists.mp hpi
  obtain ⟨dproj, hdproj⟩ := Option.isSome_iff_exists.mp hproj
  have hpiR : evaluate_metadata_differences remote
      (get_dme_directory h.pi_dir ipath vault) h.pi_meta "PI_Lab" true =
      (Event.existsWarning "PI_Lab" ::
        evaluate_differences dpi.metadataEntries h.pi_meta.metadataEntries, true) := by
    dsimp only [evaluate_metadata_differences]
    rw [hdpi]
    rfl
  have hprojR : evaluate_metadata_differences remote
      (get_dme_directory h.proj_dir ipath vault) h.proj_meta "Project" true =
      (Event.existsWarning "Project" ::
        evaluate_differences dproj.metadataEntries h.proj_meta.metadataEntries,
        true) := by
    dsimp only [evaluate_metadata_differences]
    rw [hdproj]
    rfl
  have hcs := check_samples_counts remote ipath vault h.samples_meta h.samples_dir
    h.sample_objs h.sample_objs_dir h1 h2 h3 h4
  have hco := check_objects_counts remote ipath vault h.analysis_objs
    h.analysis_objs_dir
  have hzs1 : (evaluate_differences dpi.metadataEntries
      h.pi_meta.metadataEntries).countP Event.isSampleHeader = 0 :=
    List.countP_eq_zero.mpr (fun e he => by
      simp [(evaluate_differences_no_header _ _ e he).1])
  have hzs2 : (evaluate_differences dproj.metadataEntries
      h.proj_meta.metadataEntries).countP Event.isSampleHeader = 0 :=
    List.countP_eq_zero.mpr (fun e he => by
      simp [(evaluate_differences_no_header _ _ e he).1])
  have hzo1 : (evaluate_differences dpi.metadataEntries
      h.pi_meta.metadataEntries).countP Event.isObjHeader = 0 :=
    List.countP_eq_zero.mpr (fun e he => by
      simp [(evaluate_differences_no_header _ _ e he).2])
  have hzo2 : (evaluate_differences dproj.metadataEntries
      h.proj_meta.metadataEntries).countP Event.isObjHeader = 0 :=
    List.countP_eq_zero.mpr (fun e he => by
      simp [(evaluate_differences_no_header _ _ e he).2])
  dsimp only [drive]
  rw [hpiR, hprojR]
  rcases hana : remote.collection (get_dme_directory h.analysis_dir ipath vault)
    with _ | dana
  · have hanaR : evaluate_metadata_differences remote
        (get_dme_directory h.analysis_dir ipath vault) h.analysis_meta
        "Primary Analysis" true = ([Event.notExists "Primary Analysis"], false) := by
      dsimp only [evaluate_metadata_differences]
      rw [hana]
      rfl
    rw [hanaR]
    constructor
    · simp [List.countP_append, List.countP_cons, hzs1, hzs2, hcs.1,
        Event.isSampleHeader]
    · simp [List.countP_append, List.countP_cons, hzo1, hzo2, hcs.2,
        Event.isSampleHeader, Event.isObjHeader]
  · have hanaR : evaluate_metadata_differences remote
        (get_dme_directory h.analysis_dir ipath vault) h.analysis_meta
        "Primary Analysis" true =
        (Event.existsWarning "Primary Analysis" ::
          evaluate_differences dana.metadataEntries h.analysis_meta.metadataEntries,
          true) := by
      dsimp only [evaluate_metadata_differences]
      rw [hana]
      rfl
    have hzs3 : (evaluate_differences dana.metadataEntries
        h.analysis_meta.metadataEntries).countP Event.isSampleHeader = 0 :=
      List.countP_eq_zero.mpr (fun e he => by
        simp [(evaluate_differences_no_header _ _ e he).1])
    have hzo3 : (evaluate_differences dana.metadataEntries
        h.analysis_meta.metadataEntries).countP Event.isObjHeader = 0 :=
      List.countP_eq_zero.mpr (fun e he => by
        simp [(evaluate_differences_no_header _ _ e he).2])
    rw [hanaR]
    constructor
    · simp [List.countP_append, List.countP_cons, hzs1, hzs2, hzs3, hcs.1, hco.1,
        Event.isSampleHeader]
    · simp [List.countP_append, List.countP_cons, hzo1, hzo2, hzo3, hcs.2, hco.2,
        Event.isSampleHeader, Event.isObjHeader, h5, Nat.min_self]

/-- A concrete remote catalog for the C5 witness: the PI lab, the
project and the first sample are registered; the analysis and the
second sample are not. -/
def c5_remote : Remote :=
  ⟨fun p =>
    if p = "/pi".toList then some ⟨[]⟩
    else if p = "/pr".toList then some ⟨[]⟩
    else if p = "/s1".toList then some ⟨[]⟩
    else none,
   fun _ => none⟩

/-- A concrete hierarchy for the C5 witness: one analysis object, two
samples with one and zero data objects. -/
def c5_hier : Hier :=
  ⟨⟨[]⟩, "pi".toList, ⟨[]⟩, "pr".toList, ⟨[]⟩, "an".toList,
    [⟨[]⟩], ["ao1".toList],
    [⟨[]⟩, ⟨[]⟩], ["s1".toList, "s2".toList],
    [[⟨[]⟩], []], [["o1".toList], []]⟩

/-- Witness for C5: both samples are checked although the analysis
does not exist remotely, and exactly the one data object of the one
remotely-existing sample is checked. -/
theorem C5_samples_independent_witness :
    (drive c5_remote [] [] c5_hier).countP Event.isSampleHeader = 2 ∧
    (drive c5_remote [] [] c5_hier).countP Event.isObjHeader = 1 := by
  have h := C5_samples_independent c5_remote [] [] c5_hier (by decide) (by decide)
    (by decide) (by decide) (by decide) (by decide) (by decide)
  refine ⟨?_, ?_⟩
  · rw [h.1]
    decide
  · rw [h.2]
    decide

/-! ## The end-to-end scenario of C1 -/

/-- The local tree of the C1 scenario: a PI_Lab containing a Project
containing a Primary_Analysis with two data objects and one Sample
with one data object. -/
def e2e_fs : FS :=
  ⟨fun p =>
    if p = "/in".toList then ["PI_Lab_A.metadata.json".toList]
    else if p = "/in/PI_Lab_A".toList then ["Project_P.metadata.json".toList]
    else if p = "/in/PI_Lab_A/Project_P".toList then
      ["Primary_Analysis_X.metadata.json".toList, "Sample_S.metadata.json".toList]
    else if p = "/in/PI_Lab_A/Project_P/Primary_Analysis_X".toList then
      ["d1.metadata.json".toList, "d2.metadata.json".toList]
    else if p = "/in/PI_Lab_A/Project_P/Sample_S".toList then
      ["o1.metadata.json".toList]
    else [],
   fun p =>
    if p = "/in/PI_Lab_A.metadata.json".toList then ⟨[⟨"pi_name", "Foo"⟩]⟩
    else if p = "/in/PI_Lab_A/Project_P.metadata.json".toList then ⟨[⟨"title", "T"⟩]⟩
    else ⟨[⟨"k", "v"⟩]⟩⟩

/-- The remote catalog of the C1 scenario: the PI_Lab and the Project
are registered (the PI_Lab with one differing attribute value), the
Primary_Analysis and the Sample are not. -/
def e2e_remote : Remote :=
  ⟨fun p =>
    if p = "/CCBR_Archive/PI_Lab_A".toList then some ⟨[⟨"pi_name", "Bar"⟩]⟩
    else if p = "/CCBR_Archive/PI_Lab_A/Project_P".toList then some ⟨[⟨"title", "T"⟩]⟩
    else none,
   fun _ => none⟩

/-- C1 counterexample: in the exact scenario of the claim the run
succeeds (exit status 0) and the Primary Analysis and the Sample each
report "does not exist on DME" once, but no data-object line of any
kind is printed: the driver never visits the children of a node that
does not exist remotely, contradicting the claim that the two analysis
data objects and the sample data object report "does not exist
remotely". -/
theorem C1_counterexample :
    (main e2e_fs e2e_remote "/in".toList "CCBR_Archive".toList).toOption.map
      (fun tr =>
        (tr.countP (fun e => e == Event.notExists "DataObject"),
         tr.countP Event.isObjHeader,
         tr.countP (fun e => e == Event.notExists "Primary Analysis"),
         tr.countP (fun e => e == Event.notExists "Sample"))) =
      some (0, 0, 1, 1) := by
  decide

/-- C1 (amended): in the scenario of the claim the run prints the
difference reports for the PI_Lab and the Project, prints "does not
exist on DME" for the Primary_Analysis and for the Sample, prints
nothing for the data objects under either of them (children are
visited only when their parent exists remotely), and exits with
status 0. -/
theorem C1_scenario :
    main e2e_fs e2e_remote "/in".toList "CCBR_Archive".toList =
      Except.ok
        [Event.levelHeader "PI_Lab" "PI_Lab_A".toList,
         Event.existsWarning "PI_Lab",
         Event.counts 0 0 1,
         Event.modified "pi_name" "Bar" "Foo",
         Event.levelHeader "Project" "Project_P".toList,
         Event.existsWarning "Project",
         Event.counts 0 0 1,
         Event.levelHeader "Primary Analysis" "Primary_Analysis_X".toList,
         Event.notExists "Primary Analysis",
         Event.levelHeader "Sample" "Sample_S".toList,
         Event.notExists "Sample"] := by
  rfl

end Pyrkit
